import Mathlib

/-!
Shallow embedding of the ai_arena client (the arena-generator and
arena-viewer components): the data model, the run coordinator's click
handler, and the TSV export, together with theorems checking the
specification's claims against this embedding.

Modelling conventions:
* JS numbers stored in records are modelled as rationals (`ℚ`); the one
  place where JS division can produce `Infinity`/`NaN` (the throughput
  computation) is modelled explicitly by `JSNum`.
* Clock readings (`new Date().toISOString()`) are modelled as opaque
  `String` values attached to the event that triggers them: each settled
  request carries the reading taken when its callback resumes.
* The event-loop execution of one run is a fold over the list of request
  settlements in the (arbitrary) order in which they settle; each
  settlement records which model it was issued for and its outcome
  (a response, a falsy response value, or a thrown error).
* `humanFileSize` lives in `src/utils.ts`, which only formats a byte count
  for display; the export model takes it as a parameter `hfs : ℚ → String`
  since no claim depends on its output beyond it being a string.
-/

namespace AIArena

/-- A locally installed model as listed by the backend (`TLLM` in the source). -/
structure TLLM where
  name : String
  parameters : String
  size : ℚ
  family : String
  selected : Bool
  deriving DecidableEq, Inhabited

/-- The `message` object of a chat response; only `content` is used. -/
structure ChatMessage where
  content : String
  deriving DecidableEq, Inhabited

/-- The fields of an ollama `ChatResponse` that the handler reads. -/
structure ChatResponse where
  created_at : String
  message : ChatMessage
  total_duration : ℚ
  load_duration : ℚ
  prompt_eval_count : ℚ
  prompt_eval_duration : ℚ
  eval_count : ℚ
  eval_duration : ℚ
  deriving DecidableEq, Inhabited

/-- How one per-model chat request settles: with a response, with a falsy
response value, or by throwing (network/model error). -/
inductive ChatOutcome where
  | ok (resp : ChatResponse)
  | nullish
  | err
  deriving DecidableEq, Inhabited

/-- One settled request: the model it was sent for, its outcome, and the
clock reading observed when its callback resumes (after the `await`). -/
structure Settlement where
  llm : TLLM
  outcome : ChatOutcome
  time : String
  deriving DecidableEq, Inhabited

/-- An entry of the in-memory `_results` list: the spread of the chat
response, the model descriptor, the query and the `started` clock reading
(the push in `_handleClick` includes no group id). -/
structure ResultRec where
  created_at : String
  message : ChatMessage
  total_duration : ℚ
  load_duration : ℚ
  prompt_eval_count : ℚ
  prompt_eval_duration : ℚ
  eval_count : ℚ
  eval_duration : ℚ
  name : String
  parameters : String
  size : ℚ
  family : String
  selected : Bool
  query : String
  started : String
  deriving DecidableEq, Inhabited

/-- A persisted Response Record, exactly the object passed to
`dexie.responses.add` in `_handleClick` (and the viewer's `TResponse`,
whose auto-assigned `id` key is omitted because nothing reads it). -/
structure TResponse where
  created_at : String
  eval_count : ℚ
  eval_duration : ℚ
  model_family : String
  load_duration : ℚ
  message : String
  model_name : String
  parameters : String
  prompt_eval_count : ℚ
  prompt_eval_duration : ℚ
  query : String
  size : ℚ
  started : String
  total_duration : ℚ
  group_id : String
  deriving DecidableEq, Inhabited

/-- The record pushed onto `_results` for one successful settlement. -/
def mkResultRec (resp : ChatResponse) (llm : TLLM) (query time : String) : ResultRec :=
  { created_at := resp.created_at
    message := resp.message
    total_duration := resp.total_duration
    load_duration := resp.load_duration
    prompt_eval_count := resp.prompt_eval_count
    prompt_eval_duration := resp.prompt_eval_duration
    eval_count := resp.eval_count
    eval_duration := resp.eval_duration
    name := llm.name
    parameters := llm.parameters
    size := llm.size
    family := llm.family
    selected := llm.selected
    query := query
    started := time }

/-- The record persisted via `dexie.responses.add` for one successful
settlement.  The source reads the clock twice (once for the push, once
here); the two consecutive readings are modelled as the same value. -/
def mkDBRec (resp : ChatResponse) (llm : TLLM) (query uuid time : String) : TResponse :=
  { created_at := resp.created_at
    eval_count := resp.eval_count
    eval_duration := resp.eval_duration
    model_family := llm.family
    load_duration := resp.load_duration
    message := resp.message.content
    model_name := llm.name
    parameters := llm.parameters
    prompt_eval_count := resp.prompt_eval_count
    prompt_eval_duration := resp.prompt_eval_duration
    query := query
    size := llm.size
    started := time
    total_duration := resp.total_duration
    group_id := uuid }

/-- The mutable state touched while one run's settlements resolve:
the in-memory results, the persisted store, the run-local completion
counter, the `_running` flag, and the counter value observed at each
`generator:done` dispatch of this run. -/
structure RunState where
  results : List ResultRec
  db : List TResponse
  counter : ℕ
  running : Bool
  emittedAt : List ℕ
  deriving DecidableEq, Inhabited

/-- One settled request resumes its callback (body of the `forEach` in
`_handleClick`): a thrown error stops the callback before the counter
update; otherwise the counter is incremented, then a falsy response
returns early; a real response is pushed, persisted, the `_running` check
runs, and the `generator:done` event is dispatched (unconditionally,
after the check). -/
def settleStep (uuid query : String) (nSel : ℕ) (st : RunState) (e : Settlement) : RunState :=
  match e.outcome with
  | .err => st
  | .nullish => { st with counter := st.counter + 1 }
  | .ok resp =>
      let counter := st.counter + 1
      { results := st.results ++ [mkResultRec resp e.llm query e.time]
        db := st.db ++ [mkDBRec resp e.llm query uuid e.time]
        counter := counter
        running := if nSel = counter then false else st.running
        emittedAt := st.emittedAt ++ [counter] }

/-- The descriptors selected at submission time (`_llm.filter(llm => llm.selected)`). -/
def selectedOf (llms : List TLLM) : List TLLM :=
  llms.filter (fun m => m.selected)

/-- One whole run of `_handleClick`: a fresh `uuid`, the captured selected
set, `counter = 0`, `_running = true`, then the settlements resolve in
order.  `t0` is the clock reading at submission time; the handler never
reads the clock at submission, so `t0` does not occur in the body. -/
def submitRun (t0 uuid query : String) (llms : List TLLM) (l : List Settlement)
    (results0 : List ResultRec) (db0 : List TResponse) : RunState :=
  l.foldl (settleStep uuid query (selectedOf llms).length)
    { results := results0, db := db0, counter := 0, running := true, emittedAt := [] }

/-- A settlement that did not throw (its callback reaches the counter update). -/
def notErr (e : Settlement) : Bool :=
  match e.outcome with
  | .err => false
  | _ => true

/-- A settlement that carries a real response. -/
def isOk (e : Settlement) : Bool :=
  match e.outcome with
  | .ok _ => true
  | _ => false

/-- The response of a successful settlement (defaulted otherwise). -/
def respOf (e : Settlement) : ChatResponse :=
  match e.outcome with
  | .ok r => r
  | _ => default

/-- The persisted record a settlement produces, if any. -/
def okDbRec (uuid query : String) (e : Settlement) : Option TResponse :=
  match e.outcome with
  | .ok resp => some (mkDBRec resp e.llm query uuid e.time)
  | _ => none

/-- The in-memory result a settlement produces, if any. -/
def okResultRec (query : String) (e : Settlement) : Option ResultRec :=
  match e.outcome with
  | .ok resp => some (mkResultRec resp e.llm query e.time)
  | _ => none

/-- The counter values at which `generator:done` fires, given the counter
value before the remaining settlements: one dispatch per successful
settlement, carrying its post-increment counter value. -/
def oksPost : List Settlement → ℕ → List ℕ
  | [], _ => []
  | e :: rest, c =>
      match e.outcome with
      | .ok _ => (c + 1) :: oksPost rest (c + 1)
      | .nullish => oksPost rest (c + 1)
      | .err => oksPost rest c

/-- The `details` object of a backend model listing entry. -/
structure OllamaModelDetails where
  parameter_size : String
  family : String
  deriving DecidableEq, Inhabited

/-- One entry of the backend's model listing. -/
structure OllamaModel where
  name : String
  size : ℚ
  details : OllamaModelDetails
  deriving DecidableEq, Inhabited

/-- `firstUpdated` of the generator: on a successful listing, `_llm` is
set to the mapped descriptors; on failure the error is logged and the
returned promise rejects with `Error("Model not available")` while `_llm`
keeps its previous value (the initial `[]`).  The backend is consulted
exactly once: the function is a single `match` on the listing outcome. -/
def firstUpdated (listResult : Except String (List OllamaModel)) (llm0 : List TLLM) :
    List TLLM × Except String Unit :=
  match listResult with
  | .ok models =>
      (models.map (fun model =>
        { name := model.name
          parameters := model.details.parameter_size
          size := model.size
          family := model.details.family
          selected := false }), .ok ())
  | .error _ => (llm0, .error "Model not available")

/-! ### The viewer's TSV export -/

/-- A JS number as produced by the export's arithmetic: a finite value,
an infinity, or `NaN`. -/
inductive JSNum where
  | num (q : ℚ)
  | inf
  | negInf
  | nan
  deriving DecidableEq, Inhabited

/-- JS division on finite operands: `a / 0` is `NaN` for `a = 0`, and a
signed infinity otherwise; other quotients are exact. -/
def jsDiv (a b : ℚ) : JSNum :=
  if b = 0 then (if a = 0 then .nan else if 0 < a then .inf else .negInf)
  else .num (a / b)

/-- JS multiplication of a possibly non-finite value by a finite one. -/
def jsMul (x : JSNum) (c : ℚ) : JSNum :=
  match x with
  | .num q => .num (q * c)
  | .inf => if 0 < c then .inf else if c < 0 then .negInf else .nan
  | .negInf => if 0 < c then .negInf else if c < 0 then .inf else .nan
  | .nan => .nan

/-- The character of a decimal digit. -/
def digitChar (d : ℕ) : Char :=
  Char.ofNat (48 + d)

/-- The decimal digits of a natural number, most significant first. -/
def natDigits (n : ℕ) : List Char :=
  if h : n < 10 then [digitChar n]
  else natDigits (n / 10) ++ [digitChar (n % 10)]
termination_by n
decreasing_by
  exact Nat.div_lt_self (by omega) (by omega)

/-- `Number.prototype.toFixed(2)`: `NaN` and the infinities print their
names; a finite value prints sign, integer part, and the two digits of
the value rounded to hundredths, ties away from zero toward the larger
numerator (the rounding the ECMA `toFixed` algorithm specifies).  The
model covers magnitudes below `10^21`, where `toFixed` uses fixed
format; the exported metrics live far below that bound. -/
def toFixed2 (x : JSNum) : String :=
  match x with
  | .nan => "NaN"
  | .inf => "Infinity"
  | .negInf => "-Infinity"
  | .num q =>
      let s := if q < 0 then "-" else ""
      let m : ℚ := if q < 0 then -q else q
      let n : ℕ := (⌊m * 100 + 1 / 2⌋).toNat
      s ++ String.mk (natDigits (n / 100)) ++ "." ++
        String.mk (if n % 100 < 10 then '0' :: natDigits (n % 100) else natDigits (n % 100))

/-- `Number.prototype.toString()` as used on the token counts: faithful
for integral values (the backend reports the counts as integers); a
non-integral rational, which no record field ever holds on the code's own
inputs, is rendered by its numerator digits. -/
def jsNumToString (q : ℚ) : String :=
  (if q < 0 then "-" else "") ++ String.mk (natDigits q.num.natAbs)

/-- A value reaching `escapeTSVValue`: the source helper takes
`string | number`. -/
inductive TSVValue where
  | str (s : String)
  | num (q : ℚ)

/-- The character replacement of `escapeTSVValue`'s string branch:
the regex `/[\t\r\n]/g` maps each tab, carriage return and newline to a
single space. -/
def escChar (c : Char) : Char :=
  if c = '\t' ∨ c = '\r' ∨ c = '\n' then ' ' else c

/-- The string branch of `escapeTSVValue`. -/
def escapeTSVString (s : String) : String :=
  String.mk (s.data.map escChar)

/-- `escapeTSVValue` of the source: strings get the tab/newline
replacement, numbers are stringified. -/
def escapeTSVValue : TSVValue → String
  | .str s => escapeTSVString s
  | .num q => jsNumToString q

/-- The replacement of `/[\r\n]+/g` by one space applied to the response
text before escaping: each maximal run of carriage returns and newlines
collapses to a single space.  The flag records whether the previous
character belonged to such a run. -/
def collapseNLAux : Bool → List Char → List Char
  | _, [] => []
  | inRun, c :: rest =>
      if c = '\r' ∨ c = '\n' then
        (if inRun then collapseNLAux true rest else ' ' :: collapseNLAux true rest)
      else c :: collapseNLAux false rest

/-- `message.replace(/[\r\n]+/g, " ")`. -/
def collapseNewlines (s : String) : String :=
  String.mk (collapseNLAux false s.data)

/-- The header row of `_exportToExcel`. -/
def headers : List String :=
  ["Family", "Model", "Parameters", "Size", "Query", "Response",
   "Total Duration", "Load Duration", "Prompt Eval Token",
   "Prompt Eval Duration", "Prompt Eval Token/s", "Response Token",
   "Response Duration", "Response Token/s", "Created", "Group"]

/-- One exported row, in the source's order. -/
def exportRow (hfs : ℚ → String) (r : TResponse) : List String :=
  [escapeTSVValue (.str r.model_family),
   escapeTSVValue (.str r.model_name),
   escapeTSVValue (.str r.parameters),
   escapeTSVValue (.str (hfs r.size)),
   escapeTSVValue (.str r.query),
   escapeTSVValue (.str (collapseNewlines r.message)),
   escapeTSVValue (.str (toFixed2 (jsDiv r.total_duration 1000000))),
   escapeTSVValue (.str (toFixed2 (jsDiv r.load_duration 1000000))),
   escapeTSVValue (.num r.prompt_eval_count),
   escapeTSVValue (.str (toFixed2 (jsDiv r.prompt_eval_duration 1000000))),
   escapeTSVValue (.str (toFixed2 (jsMul (jsDiv r.prompt_eval_count r.prompt_eval_duration) 1000000000))),
   escapeTSVValue (.num r.eval_count),
   escapeTSVValue (.str (toFixed2 (jsDiv r.eval_duration 1000000))),
   escapeTSVValue (.str (toFixed2 (jsMul (jsDiv r.eval_count r.eval_duration) 1000000000))),
   escapeTSVValue (.str r.created_at),
   escapeTSVValue (.str r.group_id)]

/-- The escaped, tab-joined header line. -/
def headerLine : String :=
  String.intercalate "\t" (headers.map (fun h => escapeTSVValue (.str h)))

/-- The list of lines joined into the TSV body: the header line followed
by one joined row per cached record. -/
def tsvLines (hfs : ℚ → String) (rs : List TResponse) : List String :=
  headerLine :: rs.map (fun r => String.intercalate "\t" (exportRow hfs r))

/-- The TSV body. -/
def tsvContent (hfs : ℚ → String) (rs : List TResponse) : String :=
  String.intercalate "\n" (tsvLines hfs rs)

/-- The UTF-8 byte-order mark prepended to the artifact. -/
def bom : String := "\uFEFF"

/-- `_exportToExcel`: with no cached records the user is alerted and no
file is produced; otherwise the downloaded artifact's content is the
BOM-prefixed TSV body. -/
def exportToExcel (hfs : ℚ → String) (rs : List TResponse) : Option String :=
  if rs.length = 0 then none else some (bom ++ tsvContent hfs rs)

/-- A character that cannot break the tabular structure of the artifact:
neither a tab, nor a newline, nor a carriage return. -/
def safeChar (c : Char) : Prop :=
  c ≠ '\t' ∧ c ≠ '\n' ∧ c ≠ '\r'

instance (c : Char) : Decidable (safeChar c) := by
  unfold safeChar
  infer_instance

/-! ### Concrete sample data used by witnesses and counterexamples -/

/-- A selected sample model. -/
def llmA : TLLM :=
  { name := "A", parameters := "8B", size := 4, family := "llama", selected := true }

/-- A second selected sample model. -/
def llmB : TLLM :=
  { name := "B", parameters := "7B", size := 5, family := "mistral", selected := true }

/-- A sample response. -/
def respA : ChatResponse :=
  { created_at := "c1", message := { content := "hi" }, total_duration := 9,
    load_duration := 1, prompt_eval_count := 2, prompt_eval_duration := 3,
    eval_count := 4, eval_duration := 5 }

/-- Another sample response. -/
def respB : ChatResponse :=
  { created_at := "c2", message := { content := "yo" }, total_duration := 8,
    load_duration := 2, prompt_eval_count := 3, prompt_eval_duration := 4,
    eval_count := 5, eval_duration := 6 }

/-- C1 sample: both requests succeed. -/
def lC1 : List Settlement :=
  [⟨llmA, .ok respA, "t1"⟩, ⟨llmB, .ok respB, "t2"⟩]

/-- C2 sample: both requests succeed, so `generator:done` fires twice. -/
def lC2 : List Settlement :=
  [⟨llmA, .ok respA, "t1"⟩, ⟨llmB, .ok respB, "t2"⟩]

/-- The C2 sample run. -/
def runC2 : RunState :=
  submitRun "t0" "u1" "q" [llmA, llmB] lC2 [] []

/-- C3 sample: the second request throws. -/
def lC3 : List Settlement :=
  [⟨llmA, .ok respA, "t1"⟩, ⟨llmB, .err, "t2"⟩]

/-- C7 sample: one request, settling at clock reading "t5" while the run
was submitted at clock reading "t0". -/
def lC7 : List Settlement :=
  [⟨llmA, .ok respA, "t5"⟩]

/-- The C7 sample run. -/
def runC7 : RunState :=
  submitRun "t0" "u1" "q" [llmA] lC7 [] []

/-- C10 sample: the first request settles with a falsy response, the
second succeeds. -/
def lC10 : List Settlement :=
  [⟨llmA, .nullish, "t1"⟩, ⟨llmB, .ok respB, "t2"⟩]

/-- C4 sample record. -/
def rC4 : TResponse :=
  { created_at := "c1", eval_count := 5, eval_duration := 6, model_family := "llama",
    load_duration := 1, message := "hi", model_name := "A", parameters := "8B",
    prompt_eval_count := 2, prompt_eval_duration := 3, query := "q", size := 4,
    started := "t1", total_duration := 9, group_id := "u1" }

/-- C5 sample record: positive prompt-eval duration, zero response duration. -/
def rC5 : TResponse :=
  { created_at := "c1", eval_count := 3, eval_duration := 0, model_family := "llama",
    load_duration := 1, message := "hi", model_name := "A", parameters := "8B",
    prompt_eval_count := 4, prompt_eval_duration := 2, query := "q", size := 4,
    started := "t1", total_duration := 9, group_id := "u1" }

/-- C6 sample record: a run of two newlines in the response, a tab in the
query. -/
def rC6 : TResponse :=
  { created_at := "", eval_count := 0, eval_duration := 0, model_family := "",
    load_duration := 0, message := "a\n\nb", model_name := "", parameters := "",
    prompt_eval_count := 0, prompt_eval_duration := 0, query := "x\ty", size := 0,
    started := "", total_duration := 0, group_id := "" }

/-! ### Execution lemmas for the run coordinator -/

theorem foldl_db (uuid query : String) (nSel : ℕ) (l : List Settlement) :
    ∀ st : RunState,
      (l.foldl (settleStep uuid query nSel) st).db
        = st.db ++ l.filterMap (okDbRec uuid query) := by
  induction l with
  | nil => intro st; simp
  | cons e rest ih =>
      intro st
      cases h : e.outcome with
      | ok resp => simp [settleStep, h, okDbRec, ih]
      | nullish => simp [settleStep, h, okDbRec, ih]
      | err => simp [settleStep, h, okDbRec, ih]

theorem foldl_results (uuid query : String) (nSel : ℕ) (l : List Settlement) :
    ∀ st : RunState,
      (l.foldl (settleStep uuid query nSel) st).results
        = st.results ++ l.filterMap (okResultRec query) := by
  induction l with
  | nil => intro st; simp
  | cons e rest ih =>
      intro st
      cases h : e.outcome with
      | ok resp => simp [settleStep, h, okResultRec, ih]
      | nullish => simp [settleStep, h, okResultRec, ih]
      | err => simp [settleStep, h, okResultRec, ih]

theorem foldl_counter (uuid query : String) (nSel : ℕ) (l : List Settlement) :
    ∀ st : RunState,
      (l.foldl (settleStep uuid query nSel) st).counter
        = st.counter + l.countP notErr := by
  induction l with
  | nil => intro st; simp
  | cons e rest ih =>
      intro st
      cases h : e.outcome with
      | ok resp =>
          simp [settleStep, h, ih, List.countP_cons, notErr]
          omega
      | nullish =>
          simp [settleStep, h, ih, List.countP_cons, notErr]
          omega
      | err =>
          simp [settleStep, h, ih, List.countP_cons, notErr]

theorem foldl_emitted (uuid query : String) (nSel : ℕ) (l : List Settlement) :
    ∀ st : RunState,
      (l.foldl (settleStep uuid query nSel) st).emittedAt
        = st.emittedAt ++ oksPost l st.counter := by
  induction l with
  | nil => intro st; simp [oksPost]
  | cons e rest ih =>
      intro st
      cases h : e.outcome with
      | ok resp => simp [settleStep, h, oksPost, ih]
      | nullish => simp [settleStep, h, oksPost, ih]
      | err => simp [settleStep, h, oksPost, ih]

theorem foldl_running (uuid query : String) (nSel : ℕ) (l : List Settlement) :
    ∀ st : RunState,
      (l.foldl (settleStep uuid query nSel) st).running
        = (st.running && !(decide (nSel ∈ oksPost l st.counter))) := by
  induction l with
  | nil => intro st; simp [oksPost]
  | cons e rest ih =>
      intro st
      cases h : e.outcome with
      | ok resp =>
          rw [List.foldl_cons]
          simp only [settleStep, h]
          rw [ih]
          simp only [oksPost, h]
          by_cases hc : nSel = st.counter + 1
          · simp [hc]
          · simp [hc, List.mem_cons]
      | nullish => simp [settleStep, h, ih, oksPost]
      | err => simp [settleStep, h, ih, oksPost]

theorem oksPost_le (l : List Settlement) :
    ∀ c0 x, x ∈ oksPost l c0 → x ≤ c0 + l.countP notErr := by
  induction l with
  | nil => intro c0 x hx; simp [oksPost] at hx
  | cons e rest ih =>
      intro c0 x hx
      rw [List.countP_cons]
      cases h : e.outcome with
      | ok resp =>
          simp only [oksPost, h] at hx
          have hne : notErr e = true := by simp [notErr, h]
          rcases List.mem_cons.mp hx with h1 | h1
          · subst h1; simp [hne]
          · have := ih (c0 + 1) x h1
            simp [hne]; omega
      | nullish =>
          simp only [oksPost, h] at hx
          have hne : notErr e = true := by simp [notErr, h]
          have := ih (c0 + 1) x hx
          simp [hne]; omega
      | err =>
          simp only [oksPost, h] at hx
          have hne : notErr e = false := by simp [notErr, h]
          have := ih c0 x hx
          simp [hne]; omega

theorem oksPost_length (l : List Settlement) :
    ∀ c0, (oksPost l c0).length = l.countP isOk := by
  induction l with
  | nil => intro c0; simp [oksPost]
  | cons e rest ih =>
      intro c0
      rw [List.countP_cons]
      cases h : e.outcome with
      | ok resp => simp [oksPost, h, ih, isOk]
      | nullish => simp [oksPost, h, ih, isOk]
      | err => simp [oksPost, h, ih, isOk]

theorem mem_oksPost_of_last_ok :
    ∀ (l : List Settlement) (c0 : ℕ),
      (∃ e resp, l.getLast? = some e ∧ e.outcome = ChatOutcome.ok resp) →
      (∀ e ∈ l, notErr e = true) →
      (c0 + l.length) ∈ oksPost l c0 := by
  intro l
  induction l with
  | nil =>
      intro c0 hlast _
      rcases hlast with ⟨e, resp, he, _⟩
      simp at he
  | cons a rest ih =>
      intro c0 hlast hall
      cases rest with
      | nil =>
          rcases hlast with ⟨e, resp, he, hok⟩
          have hea : a = e := by simpa using he
          subst hea
          simp [oksPost, hok]
      | cons b bs =>
          have hlast2 : ∃ e resp, (b :: bs).getLast? = some e ∧
              e.outcome = ChatOutcome.ok resp := by
            rcases hlast with ⟨e, resp, he, hok⟩
            exact ⟨e, resp, by simpa [List.getLast?_cons_cons] using he, hok⟩
          have hall2 : ∀ e ∈ b :: bs, notErr e = true :=
            fun e he => hall e (List.mem_cons_of_mem _ he)
          have ha := hall a (List.mem_cons_self _ _)
          have heq : c0 + (a :: b :: bs).length = (c0 + 1) + (b :: bs).length := by
            simp [List.length_cons]
            omega
          cases h : a.outcome with
          | ok resp =>
              simp only [oksPost, h]
              rw [heq]
              exact List.mem_cons_of_mem _ (ih (c0 + 1) hlast2 hall2)
          | nullish =>
              simp only [oksPost, h]
              rw [heq]
              exact ih (c0 + 1) hlast2 hall2
          | err => simp [notErr, h] at ha

theorem length_filterMap_okDb (uuid query : String) (l : List Settlement) :
    (l.filterMap (okDbRec uuid query)).length = l.countP isOk := by
  induction l with
  | nil => simp
  | cons e rest ih =>
      rw [List.countP_cons]
      cases h : e.outcome with
      | ok resp => simp [okDbRec, h, ih, isOk]
      | nullish => simp [okDbRec, h, ih, isOk]
      | err => simp [okDbRec, h, ih, isOk]

theorem filterMap_okDb_of_all_ok (uuid query : String) (l : List Settlement)
    (h : ∀ e ∈ l, isOk e = true) :
    l.filterMap (okDbRec uuid query)
      = l.map (fun e => mkDBRec (respOf e) e.llm query uuid e.time) := by
  induction l with
  | nil => simp
  | cons e rest ih =>
      have he := h e (List.mem_cons_self _ _)
      have ihr := ih (fun x hx => h x (List.mem_cons_of_mem _ hx))
      cases ho : e.outcome with
      | ok resp => simp [okDbRec, ho, respOf, ihr]
      | nullish => simp [isOk, ho] at he
      | err => simp [isOk, ho] at he

theorem countP_lt_of_mem_not {α : Type} (p : α → Bool) {l : List α} {e : α}
    (he : e ∈ l) (hp : p e = false) : l.countP p < l.length := by
  refine lt_of_le_of_ne (l.countP_le_length p) ?_
  intro heq
  have := List.countP_eq_length.mp heq e he
  rw [hp] at this
  exact Bool.false_ne_true this

/-! ### Character-safety lemmas for the export -/

theorem digitChar_bound : ∀ d < 10, 48 ≤ (digitChar d).toNat ∧ (digitChar d).toNat ≤ 57 := by
  decide

theorem natDigits_bound : ∀ n : ℕ, ∀ c ∈ natDigits n, 48 ≤ c.toNat ∧ c.toNat ≤ 57 := by
  intro n
  induction n using Nat.strong_induction_on with
  | _ n ih =>
      intro c hc
      rw [natDigits] at hc
      by_cases h : n < 10
      · rw [dif_pos h] at hc
        have hcd : c = digitChar n := by simpa using hc
        subst hcd
        exact digitChar_bound n h
      · rw [dif_neg h] at hc
        rcases List.mem_append.mp hc with h1 | h1
        · exact ih (n / 10) (Nat.div_lt_self (by omega) (by omega)) c h1
        · have hcd : c = digitChar (n % 10) := by simpa using h1
          subst hcd
          exact digitChar_bound _ (Nat.mod_lt _ (by omega))

theorem safeChar_of_bound {c : Char} (h : 48 ≤ c.toNat ∧ c.toNat ≤ 57) : safeChar c := by
  refine ⟨?_, ?_, ?_⟩ <;> rintro rfl <;> revert h <;> decide

theorem natDigits_safe (n : ℕ) : ∀ c ∈ natDigits n, safeChar c :=
  fun c hc => safeChar_of_bound (natDigits_bound n c hc)

theorem escChar_safe (c : Char) : safeChar (escChar c) := by
  by_cases h : c = '\t' ∨ c = '\r' ∨ c = '\n'
  · have he : escChar c = ' ' := if_pos h
    rw [he]; decide
  · have he : escChar c = c := if_neg h
    rw [he]
    push_neg at h
    exact ⟨h.1, h.2.2, h.2.1⟩

theorem escapeTSVString_safe (s : String) : ∀ c ∈ (escapeTSVString s).data, safeChar c := by
  intro c hc
  have hd : (escapeTSVString s).data = s.data.map escChar := rfl
  rw [hd] at hc
  rcases List.mem_map.mp hc with ⟨d, _, rfl⟩
  exact escChar_safe d

theorem jsNumToString_safe (q : ℚ) : ∀ c ∈ (jsNumToString q).data, safeChar c := by
  intro c hc
  rw [jsNumToString, String.data_append] at hc
  rcases List.mem_append.mp hc with h1 | h1
  · by_cases hq : q < 0
    · rw [if_pos hq] at h1
      have hcd : c = '-' := by simpa using h1
      subst hcd; decide
    · rw [if_neg hq] at h1
      simp at h1
  · exact natDigits_safe _ c h1

theorem toFixed2_safe (x : JSNum) : ∀ c ∈ (toFixed2 x).data, safeChar c := by
  cases x with
  | nan => decide
  | inf => decide
  | negInf => decide
  | num q =>
      intro c hc
      simp only [toFixed2] at hc
      rw [String.data_append, String.data_append, String.data_append] at hc
      rcases List.mem_append.mp hc with h1 | h1
      · rcases List.mem_append.mp h1 with h2 | h2
        · rcases List.mem_append.mp h2 with h3 | h3
          · by_cases hq : q < 0
            · rw [if_pos hq] at h3
              have hcd : c = '-' := by simpa using h3
              subst hcd; decide
            · rw [if_neg hq] at h3
              simp at h3
          · exact natDigits_safe _ c h3
        · have hcd : c = '.' := by simpa using h2
          subst hcd; decide
      · by_cases hn : (⌊(if q < 0 then -q else q) * 100 + 1 / 2⌋.toNat) % 100 < 10
        · rw [if_pos hn] at h1
          rcases List.mem_cons.mp h1 with h2 | h2
          · subst h2; decide
          · exact natDigits_safe _ c h2
        · rw [if_neg hn] at h1
          exact natDigits_safe _ c h1

theorem escapeTSVValue_safe (v : TSVValue) : ∀ c ∈ (escapeTSVValue v).data, safeChar c := by
  cases v with
  | str s => exact escapeTSVString_safe s
  | num q => exact jsNumToString_safe q

theorem jsDiv_of_ne (a b : ℚ) (hb : b ≠ 0) : jsDiv a b = .num (a / b) := by
  simp [jsDiv, hb]

/-! ### Claim theorems -/

/-- **C1.** For a run over a selected set whose model names are distinct,
with every chat request succeeding (the settlements being the selected
descriptors in arbitrary order), exactly `|S|` Response Records are
appended to the store, each carrying the run's `uuid` as its group id and
a model name drawn from the selected set, and those model names are
pairwise distinct.  Freshness of the `crypto.randomUUID()` token is not
modelled; the identifier is a parameter shared by the whole run. -/
theorem run_persists_one_record_per_selected_model
    (t0 uuid query : String) (llms : List TLLM) (l : List Settlement)
    (results0 : List ResultRec) (db0 : List TResponse)
    (hperm : List.Perm (l.map (fun e => e.llm)) (selectedOf llms))
    (hok : ∀ e ∈ l, isOk e = true)
    (hnodup : ((selectedOf llms).map (fun m => m.name)).Nodup) :
    (submitRun t0 uuid query llms l results0 db0).db.length
        = db0.length + (selectedOf llms).length
    ∧ (∀ rec ∈ (submitRun t0 uuid query llms l results0 db0).db.drop db0.length,
        rec.group_id = uuid ∧ rec.model_name ∈ (selectedOf llms).map (fun m => m.name))
    ∧ (((submitRun t0 uuid query llms l results0 db0).db.drop db0.length).map
        (fun rec => rec.model_name)).Nodup := by
  have hdb0 := foldl_db uuid query (selectedOf llms).length l
      { results := results0, db := db0, counter := 0, running := true, emittedAt := [] }
  rw [filterMap_okDb_of_all_ok uuid query l hok] at hdb0
  have hdb : (submitRun t0 uuid query llms l results0 db0).db
      = db0 ++ l.map (fun e => mkDBRec (respOf e) e.llm query uuid e.time) := hdb0
  have hdrop : (submitRun t0 uuid query llms l results0 db0).db.drop db0.length
      = l.map (fun e => mkDBRec (respOf e) e.llm query uuid e.time) := by
    rw [hdb]; exact List.drop_left _ _
  have hlen : l.length = (selectedOf llms).length := by
    have := hperm.length_eq
    simpa using this
  have hpermN := hperm.map (fun m => m.name)
  refine ⟨?_, ?_, ?_⟩
  · rw [hdb]
    simp [List.length_append, List.length_map, hlen]
  · intro rec hrec
    rw [hdrop] at hrec
    rcases List.mem_map.mp hrec with ⟨e, hel, rfl⟩
    refine ⟨rfl, ?_⟩
    have hmem : e.llm.name ∈ (l.map (fun e2 => e2.llm)).map (fun m => m.name) :=
      List.mem_map.mpr ⟨e.llm, List.mem_map.mpr ⟨e, hel, rfl⟩, rfl⟩
    exact hpermN.mem_iff.mp hmem
  · rw [hdrop]
    have hmapmap : (l.map (fun e => mkDBRec (respOf e) e.llm query uuid e.time)).map
        (fun rec => rec.model_name)
        = (l.map (fun e => e.llm)).map (fun m => m.name) := by
      simp [List.map_map, mkDBRec]
    rw [hmapmap]
    exact hpermN.nodup_iff.mpr hnodup

/-- Witness for C1 at a concrete two-model run in which both requests
succeed: two records are persisted. -/
theorem run_persists_one_record_per_selected_model_witness :
    (submitRun "t0" "u1" "q" [llmA, llmB] lC1 [] []).db.length
      = ([] : List TResponse).length + (selectedOf [llmA, llmB]).length :=
  (run_persists_one_record_per_selected_model "t0" "u1" "q" [llmA, llmB] lC1 [] []
    (List.Perm.refl _) (by decide) (by decide)).1

/-- **C2 (counterexample).** In a two-model run in which both requests
succeed, the `generator:done` event is dispatched once with the counter
at 1 and once with it at 2, so the claim that the signal fires only when
the counter reaches `|S| = 2` is false: the dispatch sits outside the
`if` that clears `_running`. -/
theorem done_signal_fires_before_completion :
    ¬ (∀ c ∈ runC2.emittedAt, c = (selectedOf [llmA, llmB]).length) := by
  intro hall
  have h1 : (1 : ℕ) ∈ runC2.emittedAt := by
    have he : runC2.emittedAt = [1, 2] := rfl
    rw [he]; exact List.mem_cons_self _ _
  have h2 := hall 1 h1
  have h3 : (selectedOf [llmA, llmB]).length = 2 := rfl
  rw [h3] at h2
  exact absurd h2 (by decide)

/-- **C2 (amended).** The coordinator dispatches `generator:done` after
every successful per-request completion, not only the final one: the
dispatched counter values are exactly the post-increment counters of the
successful settlements, one per success; and the coordinator transitions
out of "busy" exactly when one of those dispatches carries the counter
value `|S|`, i.e. the signal does fire at the transition point but also
at every earlier success. -/
theorem done_signal_per_success (t0 uuid query : String) (llms : List TLLM)
    (l : List Settlement) (results0 : List ResultRec) (db0 : List TResponse) :
    (submitRun t0 uuid query llms l results0 db0).emittedAt = oksPost l 0
    ∧ (submitRun t0 uuid query llms l results0 db0).emittedAt.length = l.countP isOk
    ∧ ((submitRun t0 uuid query llms l results0 db0).running = false
        ↔ (selectedOf llms).length ∈ oksPost l 0) := by
  have he : (submitRun t0 uuid query llms l results0 db0).emittedAt = oksPost l 0 := by
    have := foldl_emitted uuid query (selectedOf llms).length l
        { results := results0, db := db0, counter := 0, running := true, emittedAt := [] }
    simpa using this
  have hr : (submitRun t0 uuid query llms l results0 db0).running
      = (true && !(decide ((selectedOf llms).length ∈ oksPost l 0))) :=
    foldl_running uuid query (selectedOf llms).length l _
  refine ⟨he, by rw [he]; exact oksPost_length l 0, ?_⟩
  rw [hr]
  by_cases hm : (selectedOf llms).length ∈ oksPost l 0 <;> simp [hm]

/-- **C3.** If at least one request of a run throws, the throwing request
increments no counter (the counter counts exactly the non-throwing
settlements) and persists no record, the final counter stays strictly
below `|S|`, and the coordinator never leaves the "busy" state. -/
theorem failed_request_leaves_run_busy
    (t0 uuid query : String) (llms : List TLLM) (l : List Settlement)
    (results0 : List ResultRec) (db0 : List TResponse)
    (hperm : List.Perm (l.map (fun e => e.llm)) (selectedOf llms))
    (hfail : ∃ e ∈ l, e.outcome = ChatOutcome.err) :
    (submitRun t0 uuid query llms l results0 db0).running = true
    ∧ (submitRun t0 uuid query llms l results0 db0).counter = l.countP notErr
    ∧ (submitRun t0 uuid query llms l results0 db0).counter < (selectedOf llms).length
    ∧ (submitRun t0 uuid query llms l results0 db0).db
        = db0 ++ l.filterMap (okDbRec uuid query)
    ∧ (∀ e ∈ l, e.outcome = ChatOutcome.err → okDbRec uuid query e = none) := by
  have hlen : l.length = (selectedOf llms).length := by
    have := hperm.length_eq; simpa using this
  have hcnt : (submitRun t0 uuid query llms l results0 db0).counter = l.countP notErr := by
    have := foldl_counter uuid query (selectedOf llms).length l
        { results := results0, db := db0, counter := 0, running := true, emittedAt := [] }
    simpa using this
  have hlt : l.countP notErr < (selectedOf llms).length := by
    rcases hfail with ⟨e, hel, hout⟩
    have := countP_lt_of_mem_not notErr hel (by simp [notErr, hout])
    omega
  have hnm : (selectedOf llms).length ∉ oksPost l 0 := by
    intro hm
    have := oksPost_le l 0 _ hm
    omega
  have hr : (submitRun t0 uuid query llms l results0 db0).running
      = (true && !(decide ((selectedOf llms).length ∈ oksPost l 0))) :=
    foldl_running uuid query (selectedOf llms).length l _
  refine ⟨?_, hcnt, ?_, ?_, ?_⟩
  · rw [hr]; simp [hnm]
  · rw [hcnt]; exact hlt
  · exact foldl_db uuid query (selectedOf llms).length l _
  · intro e _ hout; simp [okDbRec, hout]

/-- Witness for C3: a two-model run whose second request throws stays
busy forever. -/
theorem failed_request_leaves_run_busy_witness :
    (submitRun "t0" "u1" "q" [llmA, llmB] lC3 [] []).running = true :=
  (failed_request_leaves_run_busy "t0" "u1" "q" [llmA, llmB] lC3 [] []
    (List.Perm.refl _) ⟨⟨llmB, ChatOutcome.err, "t2"⟩, by decide, rfl⟩).1

/-- **C7 (counterexample).** In a run submitted at clock reading "t0"
whose single request settles at clock reading "t5", the persisted
record's started-at is "t5": `new Date()` runs after the `await`, so the
claim that started-at is the submission-time reading is false. -/
theorem started_at_not_submission_time :
    ¬ (∀ rec ∈ runC7.db, rec.started = "t0") := by
  intro hall
  have hm : mkDBRec respA llmA "q" "u1" "t5" ∈ runC7.db := by
    have hdb : runC7.db = [mkDBRec respA llmA "q" "u1" "t5"] := rfl
    rw [hdb]; exact List.mem_cons_self _ _
  have h2 := hall _ hm
  exact absurd h2 (by decide)

/-- **C7 (amended).** Every persisted record's started-at is the clock
reading taken when its request's response arrived (resuming the callback
after the `await`); whenever those arrival readings differ from the
submission-time reading `t0`, no persisted record carries `t0`. -/
theorem started_at_records_arrival_time
    (t0 uuid query : String) (llms : List TLLM) (l : List Settlement)
    (results0 : List ResultRec) (db0 : List TResponse)
    (h : ∀ e ∈ l, e.time ≠ t0) :
    (submitRun t0 uuid query llms l results0 db0).db
        = db0 ++ l.filterMap (okDbRec uuid query)
    ∧ (∀ rec ∈ l.filterMap (okDbRec uuid query),
        rec.started ∈ l.map (fun e => e.time) ∧ rec.started ≠ t0) := by
  refine ⟨foldl_db uuid query (selectedOf llms).length l _, ?_⟩
  intro rec hrec
  rcases List.mem_filterMap.mp hrec with ⟨e, hel, hsome⟩
  cases ho : e.outcome with
  | ok resp =>
      simp only [okDbRec, ho, Option.some.injEq] at hsome
      constructor
      · rw [← hsome]
        exact List.mem_map.mpr ⟨e, hel, rfl⟩
      · rw [← hsome]
        exact h e hel
  | nullish => simp [okDbRec, ho] at hsome
  | err => simp [okDbRec, ho] at hsome

/-- Witness for the amended C7 at the concrete one-request run settling
at "t5". -/
theorem started_at_records_arrival_time_witness :
    (mkDBRec respA llmA "q" "u1" "t5").started ≠ "t0" :=
  ((started_at_records_arrival_time "t0" "u1" "q" [llmA] lC7 [] []
      (by decide)).2 (mkDBRec respA llmA "q" "u1" "t5") (by decide)).2

/-- **C8.** When the model listing fails, `firstUpdated` surfaces the
rejection (`Error("Model not available")`, the `BackendUnavailable`
condition) to its caller, the descriptor list keeps its value — the
initial empty list at component start-up — and, the embedding being a
single `match` on the one listing outcome, no retry is attempted. -/
theorem backend_failure_surfaces_and_keeps_list_empty (e : String) (llm0 : List TLLM) :
    (firstUpdated (Except.error e) llm0).1 = llm0
    ∧ (firstUpdated (Except.error e) llm0).2 = Except.error "Model not available"
    ∧ firstUpdated (Except.error e) [] = ([], Except.error "Model not available") :=
  ⟨rfl, rfl, rfl⟩

/-- **C9.** `_handleClick` never clears `_results`: the post-run list is
the pre-run list with this run's successful records appended, so every
record present before the run — in particular every record of any prior
run — is still present afterwards. -/
theorem results_list_only_appends
    (t0 uuid query : String) (llms : List TLLM) (l : List Settlement)
    (results0 : List ResultRec) (db0 : List TResponse) :
    (submitRun t0 uuid query llms l results0 db0).results
        = results0 ++ l.filterMap (okResultRec query)
    ∧ ∀ r ∈ results0, r ∈ (submitRun t0 uuid query llms l results0 db0).results := by
  have hres : (submitRun t0 uuid query llms l results0 db0).results
      = results0 ++ l.filterMap (okResultRec query) :=
    foldl_results uuid query (selectedOf llms).length l _
  refine ⟨hres, fun r hr => ?_⟩
  rw [hres]
  exact List.mem_append_left _ hr

/-- **C10.** A request that settles with a falsy response still
increments the counter (the increment precedes the response check) while
appending and persisting nothing; so in an all-settled run whose last
settlement is a success, the counter reaches `|S|`, the coordinator
leaves "busy", and fewer than `|S|` records were persisted. -/
theorem falsy_response_completes_without_record
    (t0 uuid query : String) (llms : List TLLM) (l : List Settlement)
    (results0 : List ResultRec) (db0 : List TResponse)
    (hperm : List.Perm (l.map (fun e => e.llm)) (selectedOf llms))
    (hnoerr : ∀ e ∈ l, notErr e = true)
    (hnull : ∃ e ∈ l, e.outcome = ChatOutcome.nullish)
    (hlast : ∃ e resp, l.getLast? = some e ∧ e.outcome = ChatOutcome.ok resp) :
    (submitRun t0 uuid query llms l results0 db0).counter = (selectedOf llms).length
    ∧ (submitRun t0 uuid query llms l results0 db0).running = false
    ∧ (submitRun t0 uuid query llms l results0 db0).db.length
        = db0.length + l.countP isOk
    ∧ l.countP isOk < (selectedOf llms).length := by
  have hlen : l.length = (selectedOf llms).length := by
    have := hperm.length_eq; simpa using this
  have hcntAll : l.countP notErr = l.length := List.countP_eq_length.mpr hnoerr
  have hcnt : (submitRun t0 uuid query llms l results0 db0).counter = l.countP notErr := by
    have := foldl_counter uuid query (selectedOf llms).length l
        { results := results0, db := db0, counter := 0, running := true, emittedAt := [] }
    simpa using this
  have hmem : (selectedOf llms).length ∈ oksPost l 0 := by
    have := mem_oksPost_of_last_ok l 0 hlast hnoerr
    simpa [hlen] using this
  have hr : (submitRun t0 uuid query llms l results0 db0).running
      = (true && !(decide ((selectedOf llms).length ∈ oksPost l 0))) :=
    foldl_running uuid query (selectedOf llms).length l _
  have hdb : (submitRun t0 uuid query llms l results0 db0).db
      = db0 ++ l.filterMap (okDbRec uuid query) :=
    foldl_db uuid query (selectedOf llms).length l _
  have hlt : l.countP isOk < l.length := by
    rcases hnull with ⟨e, hel, hout⟩
    exact countP_lt_of_mem_not isOk hel (by simp [isOk, hout])
  refine ⟨?_, ?_, ?_, ?_⟩
  · rw [hcnt, hcntAll, hlen]
  · rw [hr]; simp [hmem]
  · rw [hdb]; simp [length_filterMap_okDb]
  · omega

/-- **C4.** On a non-empty cached list the export produces the
BOM-prefixed artifact whose line list is the header row followed by one
row per record; each row is the fixed 16-column projection in the source
order, with every duration cell holding the stored value divided by
1,000,000 (rendered to two decimals) and the count cells stringified. -/
theorem export_shape (hfs : ℚ → String) (rs : List TResponse) (h : rs ≠ []) :
    exportToExcel hfs rs = some (bom ++ String.intercalate "\n" (tsvLines hfs rs))
    ∧ tsvLines hfs rs
        = headerLine :: rs.map (fun r => String.intercalate "\t" (exportRow hfs r))
    ∧ (tsvLines hfs rs).length = rs.length + 1
    ∧ ∀ r ∈ rs, exportRow hfs r =
        [escapeTSVString r.model_family,
         escapeTSVString r.model_name,
         escapeTSVString r.parameters,
         escapeTSVString (hfs r.size),
         escapeTSVString r.query,
         escapeTSVString (collapseNewlines r.message),
         escapeTSVString (toFixed2 (.num (r.total_duration / 1000000))),
         escapeTSVString (toFixed2 (.num (r.load_duration / 1000000))),
         jsNumToString r.prompt_eval_count,
         escapeTSVString (toFixed2 (.num (r.prompt_eval_duration / 1000000))),
         escapeTSVString (toFixed2 (jsMul (jsDiv r.prompt_eval_count r.prompt_eval_duration) 1000000000)),
         jsNumToString r.eval_count,
         escapeTSVString (toFixed2 (.num (r.eval_duration / 1000000))),
         escapeTSVString (toFixed2 (jsMul (jsDiv r.eval_count r.eval_duration) 1000000000)),
         escapeTSVString r.created_at,
         escapeTSVString r.group_id] := by
  refine ⟨?_, rfl, by simp [tsvLines], ?_⟩
  · have hlen : ¬ rs.length = 0 := by
      intro hh
      exact h (List.length_eq_zero.mp hh)
    simp [exportToExcel, hlen, tsvContent]
  · intro r _
    simp only [exportRow, escapeTSVValue]
    rw [jsDiv_of_ne r.total_duration 1000000 (by norm_num),
        jsDiv_of_ne r.load_duration 1000000 (by norm_num),
        jsDiv_of_ne r.prompt_eval_duration 1000000 (by norm_num),
        jsDiv_of_ne r.eval_duration 1000000 (by norm_num)]

/-- Witness for C4 at a singleton record list. -/
theorem export_shape_witness :
    exportToExcel (fun _ => "S") [rC4]
      = some (bom ++ String.intercalate "\n" (tsvLines (fun _ => "S") [rC4]))
    ∧ (tsvLines (fun _ => "S") [rC4]).length = [rC4].length + 1 :=
  ⟨(export_shape (fun _ => "S") [rC4] (by simp)).1,
   (export_shape (fun _ => "S") [rC4] (by simp)).2.2.1⟩

/-- **C5.** The two throughput cells of an exported row are the rendered
value of `count / duration * 1e9`; when the duration is strictly positive
that value is exactly the rational `count / duration * 1e9`; when the
duration is zero the rendered cell is the deterministic sentinel "NaN"
(zero count), "Infinity" (positive count) or "-Infinity" (negative
count), never a crash. -/
theorem throughput_columns (hfs : ℚ → String) (r : TResponse) :
    ((exportRow hfs r)[10]? = some (escapeTSVString (toFixed2
        (jsMul (jsDiv r.prompt_eval_count r.prompt_eval_duration) 1000000000))))
    ∧ ((exportRow hfs r)[13]? = some (escapeTSVString (toFixed2
        (jsMul (jsDiv r.eval_count r.eval_duration) 1000000000))))
    ∧ (0 < r.prompt_eval_duration →
        jsMul (jsDiv r.prompt_eval_count r.prompt_eval_duration) 1000000000
          = JSNum.num (r.prompt_eval_count / r.prompt_eval_duration * 1000000000))
    ∧ (0 < r.eval_duration →
        jsMul (jsDiv r.eval_count r.eval_duration) 1000000000
          = JSNum.num (r.eval_count / r.eval_duration * 1000000000))
    ∧ (r.prompt_eval_duration = 0 →
        toFixed2 (jsMul (jsDiv r.prompt_eval_count r.prompt_eval_duration) 1000000000)
          = (if r.prompt_eval_count = 0 then "NaN"
             else if 0 < r.prompt_eval_count then "Infinity" else "-Infinity"))
    ∧ (r.eval_duration = 0 →
        toFixed2 (jsMul (jsDiv r.eval_count r.eval_duration) 1000000000)
          = (if r.eval_count = 0 then "NaN"
             else if 0 < r.eval_count then "Infinity" else "-Infinity")) := by
  have hpos : (0 : ℚ) < 1000000000 := by norm_num
  refine ⟨rfl, rfl, ?_, ?_, ?_, ?_⟩
  · intro hd
    rw [jsDiv_of_ne _ _ (ne_of_gt hd)]
    rfl
  · intro hd
    rw [jsDiv_of_ne _ _ (ne_of_gt hd)]
    rfl
  · intro hd
    by_cases hc : r.prompt_eval_count = 0
    · simp [jsDiv, hd, hc, jsMul, toFixed2]
    · by_cases hp : 0 < r.prompt_eval_count
      · simp [jsDiv, hd, hc, hp, jsMul, toFixed2, hpos]
      · simp [jsDiv, hd, hc, hp, jsMul, toFixed2, hpos]
  · intro hd
    by_cases hc : r.eval_count = 0
    · simp [jsDiv, hd, hc, jsMul, toFixed2]
    · by_cases hp : 0 < r.eval_count
      · simp [jsDiv, hd, hc, hp, jsMul, toFixed2, hpos]
      · simp [jsDiv, hd, hc, hp, jsMul, toFixed2, hpos]

/-- Witness for C5 at a record with positive prompt-eval duration and
zero response duration. -/
theorem throughput_columns_witness :
    jsMul (jsDiv rC5.prompt_eval_count rC5.prompt_eval_duration) 1000000000
      = JSNum.num (rC5.prompt_eval_count / rC5.prompt_eval_duration * 1000000000)
    ∧ toFixed2 (jsMul (jsDiv rC5.eval_count rC5.eval_duration) 1000000000)
      = (if rC5.eval_count = 0 then "NaN"
         else if 0 < rC5.eval_count then "Infinity" else "-Infinity") :=
  ⟨(throughput_columns (fun _ => "S") rC5).2.2.1 (by norm_num [rC5]),
   (throughput_columns (fun _ => "S") rC5).2.2.2.2.2 rfl⟩

/-- **C6 (counterexample).** The response field "a\n\nb" exports as
"a b": the run of two newlines collapses to one space (the message passes
through `replace(/[\r\n]+/g, " ")` first), not to the two spaces that
replacing each character by a single space would give; so the claim's
"each such character replaced by a single space" fails on the response
text. -/
theorem response_newline_run_collapsed :
    (exportRow (fun _ => "") rC6)[5]? = some "a b"
    ∧ escapeTSVString rC6.message = "a  b"
    ∧ ("a b" : String) ≠ "a  b" := by
  refine ⟨by decide, by decide, by decide⟩

/-- **C6 (amended).** Every exported row has exactly 16 columns and no
field value contains a tab, newline or carriage return; each tab, newline
or carriage return of the query is replaced by a single space, while in
the response text each maximal run of newlines/carriage returns collapses
to a single space before tabs are replaced. -/
theorem exportRow_sanitized (hfs : ℚ → String) (r : TResponse) :
    (exportRow hfs r).length = 16
    ∧ (∀ cell ∈ exportRow hfs r, ∀ c ∈ cell.data, safeChar c)
    ∧ (exportRow hfs r)[4]? = some (escapeTSVString r.query)
    ∧ (exportRow hfs r)[5]? = some (escapeTSVString (collapseNewlines r.message)) := by
  refine ⟨rfl, ?_, rfl, rfl⟩
  intro cell hcell
  simp only [exportRow, List.mem_cons, List.not_mem_nil, or_false] at hcell
  rcases hcell with h|h|h|h|h|h|h|h|h|h|h|h|h|h|h|h <;>
    (subst h; exact escapeTSVValue_safe _)

/-- Witness for C10: nullish first settlement, successful second — the
run leaves "busy" with one persisted record out of two models. -/
theorem falsy_response_completes_without_record_witness :
    (submitRun "t0" "u1" "q" [llmA, llmB] lC10 [] []).running = false
    ∧ (submitRun "t0" "u1" "q" [llmA, llmB] lC10 [] []).db.length
        = ([] : List TResponse).length + lC10.countP isOk :=
  ⟨(falsy_response_completes_without_record "t0" "u1" "q" [llmA, llmB] lC10 [] []
      (List.Perm.refl _) (by decide) ⟨⟨llmA, ChatOutcome.nullish, "t1"⟩, by decide, rfl⟩
      ⟨⟨llmB, ChatOutcome.ok respB, "t2"⟩, respB, rfl, rfl⟩).2.1,
   (falsy_response_completes_without_record "t0" "u1" "q" [llmA, llmB] lC10 [] []
      (List.Perm.refl _) (by decide) ⟨⟨llmA, ChatOutcome.nullish, "t1"⟩, by decide, rfl⟩
      ⟨⟨llmB, ChatOutcome.ok respB, "t2"⟩, respB, rfl, rfl⟩).2.2.1⟩

end AIArena
